import Mathlib

/-!
Verification of the package-state reconciliation engine implemented in
`plugins/modules/devtools_build.py`.

The Python module is shallowly embedded:
* Python string operations (`strip`, `startswith`, `partition`, `split`,
  `splitlines`) are modelled as executable functions on `List Char` /
  `String`, following CPython semantics restricted to ASCII text with
  `'\n'` line terminators (the only line terminator that occurs in the
  metadata streams the module consumes).
* `re.fullmatch` against the one pattern shape the module builds
  (`re.escape(prefix) + "[a-z0-9_]+\\.pkg\\.tar\\.((zst|xz))"`) is modelled
  by `matchesPkgRegex`: a whole-string decomposition into the literal
  escaped prefix, a non-empty `[a-z0-9_]` segment, and one of the two
  archive suffixes.
* The external collaborators (srcinfo generator, `extra-x86_64-build`,
  `pacman -Q`, `pacman -U`) are modelled by an `Env`/`World` pair: `World`
  holds the directory listing and the installed-package database, `Env`
  fixes the observable behaviour of the external commands.  Every issued
  external command is recorded in a `Cmd` log.  A `module.run_command`
  call with `check_rc=True` that returns a non-zero exit aborts the run
  (`Failure.checkRcFailed`), matching `AnsibleModule.fail_json`.
-/

/-! ## Python string primitives on `List Char` -/

/-- Whitespace characters recognised by Python `str.strip` (ASCII subset). -/
def isPySpace (c : Char) : Bool :=
  c = ' ' || c = '\t' || c = '\n' || c = '\r' || c = '\x0b' || c = '\x0c'

/-- Python `str.strip()` on a character list. -/
def pyStrip (cs : List Char) : List Char :=
  ((cs.dropWhile isPySpace).reverse.dropWhile isPySpace).reverse

/-- Python `str.split(sep)` for a single-character separator: splits on every
occurrence, keeping empty segments.  `charSplit sep cs` is always non-empty. -/
def charSplit (sep : Char) : List Char → List (List Char)
  | [] => [[]]
  | c :: rest =>
    match charSplit sep rest with
    | [] => [[]]
    | g :: gs => if c = sep then [] :: g :: gs else (c :: g) :: gs

/-- Python `str.splitlines()` restricted to `'\n'` line terminators:
like splitting on `'\n'` but without a trailing empty line. -/
def charSplitlines (cs : List Char) : List (List Char) :=
  let parts := charSplit '\n' cs
  if parts.getLast? = some [] then parts.dropLast else parts

/-- The suffix of `cs` following the first occurrence of `sep`
(`none` when `sep` does not occur).  Backs Python `str.partition`. -/
def afterFirst (sep : List Char) : List Char → Option (List Char)
  | [] => none
  | c :: cs =>
    if sep.isPrefixOf (c :: cs) then some ((c :: cs).drop sep.length)
    else afterFirst sep cs

/-- Python `str.partition(sep)[2]`: the part after the first occurrence of
`sep`, or `""` when `sep` does not occur. -/
def pyPartition2 (cs sep : List Char) : List Char :=
  (afterFirst sep cs).getD []

/-! ## Data model -/

/-- One entry of the `packages` list built by `pkg_infos`: the Python dict
`{"pkgname": ..., "pkgver": ..., "pkgrel": ...}`.  `pkgver`/`pkgrel` are
`Option` because the Python dict initialises them to `None`. -/
structure PkgInfo where
  pkgname : String
  pkgver : Option String
  pkgrel : Option String
deriving DecidableEq, Repr

/-! ## `pkg_infos`: metadata text to package identities (lines 88-107) -/

/-- One step of the first loop of `pkg_infos`: a stripped line sets
`version_info["pkgver"]` / `version_info["pkgrel"]` whenever it starts with
the corresponding key (each occurrence overwrites the previous value). -/
def scanLine (acc : Option String × Option String) (line : List Char) :
    Option String × Option String :=
  let l := pyStrip line
  let acc1 :=
    if "pkgver =".data.isPrefixOf l then
      (some (String.mk (pyPartition2 l " = ".data)), acc.2)
    else acc
  if "pkgrel =".data.isPrefixOf l then
    (acc1.1, some (String.mk (pyPartition2 l " = ".data)))
  else acc1

/-- The `version_info` dict after the first loop of `pkg_infos`. -/
def scanVersionInfo (s : String) : Option String × Option String :=
  (charSplitlines s.data).foldl scanLine (none, none)

/-- `pkg_infos(srcinfo)`: two passes over the lines; the first collects
`pkgver`/`pkgrel`, the second appends one record per `pkgname` line. -/
def pkg_infos (s : String) : List PkgInfo :=
  let lines := charSplitlines s.data
  let vr := lines.foldl scanLine (none, none)
  lines.filterMap fun line =>
    let l := pyStrip line
    if "pkgname =".data.isPrefixOf l then
      some { pkgname := String.mk (pyPartition2 l " = ".data),
             pkgver := vr.1, pkgrel := vr.2 }
    else none

/-! ## Artifact pattern (lines 110-123) -/

/-- Characters of the `[a-z0-9_]` class in `pkg_version_regex`. -/
def isArchChar (c : Char) : Bool :=
  ('a' ≤ c && c ≤ 'z') || ('0' ≤ c && c ≤ '9') || c = '_'

/-- Python `"{pkgname}-{pkgver}-{pkgrel}-".format_map(pkg_info)`:
`None` fields render as the literal text `None`. -/
def fmtOpt : Option String → String
  | some s => s
  | none => "None"

/-- The literal (regex-escaped, hence exactly matched) prefix of
`pkg_version_regex(pkg_info)`. -/
def pkgPrefixStr (info : PkgInfo) : String :=
  info.pkgname ++ "-" ++ fmtOpt info.pkgver ++ "-" ++ fmtOpt info.pkgrel ++ "-"

/-- Whole-string match of the pattern tail `[a-z0-9_]+\.pkg\.tar\.((zst|xz))`:
a non-empty run of `[a-z0-9_]` characters followed by exactly one of the two
archive suffixes.  Because `.` is not an `[a-z0-9_]` character, the run is
necessarily the maximal one. -/
def archSuffixOk (cs : List Char) : Bool :=
  let arch := cs.takeWhile isArchChar
  let rest := cs.dropWhile isArchChar
  !arch.isEmpty && (rest = ".pkg.tar.zst".data || rest = ".pkg.tar.xz".data)

/-- `re.fullmatch(pkg_version_regex(pkg_info), file_name) is not None`. -/
def matchesPkgRegex (info : PkgInfo) (fileName : String) : Bool :=
  let pre := (pkgPrefixStr info).data
  pre.isPrefixOf fileName.data && archSuffixOk (fileName.data.drop pre.length)

/-- `pkg_path`: first listing entry whose name fully matches the pattern,
joined with the current working directory (the `pkgbuild_dir` after
`os.chdir`). -/
def pkg_path (cwd : String) (info : PkgInfo) (listing : List String) :
    Option String :=
  match listing.find? (fun f => matchesPkgRegex info f) with
  | some f => some (cwd ++ "/" ++ f)
  | none => none

/-- `pkg_exists(pkg_info)`: `pkg_path(pkg_info) is not None`. -/
def pkg_exists (cwd : String) (info : PkgInfo) (listing : List String) : Bool :=
  (pkg_path cwd info listing).isSome

/-! ## External world and command log -/

/-- Observable state of the external world: the directory listing of the
package source directory and the target system's installed-package
database (`pacman`'s view: name to installed `(pkgver, pkgrel)`). -/
structure World where
  listing : List String
  installed : String → Option (String × String)

/-- External command invocations issued through `module.run_command`.
The srcinfo-generation command is recorded but is neither a build-tool nor
an install invocation. -/
inductive Cmd where
  | srcinfoCmd : Cmd
  | buildCmd : Cmd
  | pacmanQ : String → Cmd
  | pacmanU : List String → Option String → Cmd
deriving DecidableEq, Repr

/-- Ways a reconciliation run can abort.  `checkRcFailed` models
`module.run_command(..., check_rc=True)` observing a non-zero exit
(`AnsibleModule.fail_json`); the `py*` constructors model uncaught Python
exceptions; `artifactNotFound` is the error class named by the
specification's taxonomy — the source never raises it, the constructor
exists so that the corresponding claims are statable. -/
inductive Failure where
  | checkRcFailed : Int → Failure
  | pyIndexError : Failure
  | pyValueError : Failure
  | artifactNotFound : Failure
deriving DecidableEq, Repr

/-- Fixed behaviour of the external collaborators during one session:
the result of the srcinfo-generation command, the exit code of
`extra-x86_64-build` and its effect on the directory listing, the exit
code of `pacman -U` for a given artifact argument, and the package
identity contained in a given artifact file (`pacman -U`'s effect on the
installed database). -/
structure Env where
  srcinfoRes : Int × String × String
  buildRc : Int
  buildEffect : List String → List String
  installRc : Option String → Int
  artifactContents : String → Option (String × String × String)

/-- Standard output of the srcinfo-generation command. -/
def srcinfoStdout (env : Env) : String := env.srcinfoRes.2.1

/-- `srcinfo(pkgbuild_dir, module)`: runs the generator and returns only the
captured standard output — the exit code and error stream are dropped. -/
def srcinfo (env : Env) : String × List Cmd :=
  (env.srcinfoRes.2.1, [Cmd.srcinfoCmd])

/-! ## Build phase (lines 126-142) -/

/-- `build_package`: if no artifact matches, run `extra-x86_64-build`
(`check_rc=True`) and re-resolve; otherwise resolve without building. -/
def build_package (env : Env) (cwd : String) (info : PkgInfo) (w : World) :
    Except Failure ((Bool × Option String) × World) × List Cmd :=
  if pkg_exists cwd info w.listing then
    (.ok ((false, pkg_path cwd info w.listing), w), [])
  else if env.buildRc = 0 then
    let w1 : World := { w with listing := env.buildEffect w.listing }
    (.ok ((true, pkg_path cwd info w1.listing), w1), [Cmd.buildCmd])
  else
    (.error (.checkRcFailed env.buildRc), [Cmd.buildCmd])

/-- The `for pkg_info in pkg_infos(...)` loop of `build_packages`, threading
the world and accumulating `changed`, `package_paths` and the command log. -/
def buildLoop (env : Env) (cwd : String) :
    List PkgInfo → World →
    Except Failure ((Bool × List (Option String)) × World) × List Cmd
  | [], w => (.ok ((false, []), w), [])
  | info :: rest, w =>
    match build_package env cwd info w with
    | (.error e, l1) => (.error e, l1)
    | (.ok ((ch, p), w1), l1) =>
      match buildLoop env cwd rest w1 with
      | (.error e, l2) => (.error e, l1 ++ l2)
      | (.ok ((chR, ps), w2), l2) => (.ok ((ch || chR, p :: ps), w2), l1 ++ l2)

/-- `build_packages(pkgbuild_dir, module)`. -/
def build_packages (env : Env) (cwd : String) (w : World) :
    Except Failure ((Bool × List (Option String)) × World) × List Cmd :=
  let (text, l0) := srcinfo env
  match buildLoop env cwd (pkg_infos text) w with
  | (.error e, l) => (.error e, l0 ++ l)
  | (.ok (res, w1), l) => (.ok (res, w1), l0 ++ l)

/-! ## Install phase (lines 145-181) -/

/-- Exit code and standard output of `pacman -Q <name>`: the installed
database rendered through pacman's documented line format
`"<pkgname> <pkgver>-<pkgrel>\n"` (the format quoted in the source's own
comment), or a non-zero exit with empty output when not installed. -/
def pacmanQOut (w : World) (name : String) : Int × String :=
  match w.installed name with
  | some (v, r) => (0, name ++ " " ++ v ++ "-" ++ r ++ "\n")
  | none => (1, "")

/-- Python `==` between a parsed string and a dict value that may be `None`
(a string never equals `None`). -/
def eqOptStr (cs : List Char) : Option String → Bool
  | some s => cs = s.data
  | none => false

/-- `is_package_installed`: query `pacman -Q` (`check_rc=False`); non-zero
exit means not installed; otherwise parse
`stdout.strip().split(" ")[1].split("-")` (IndexError / unpacking
ValueError abort the run) and compare both fields. -/
def is_package_installed (info : PkgInfo) (w : World) :
    Except Failure Bool × List Cmd :=
  let (rc, stdout) := pacmanQOut w info.pkgname
  let log := [Cmd.pacmanQ info.pkgname]
  if rc ≠ 0 then (.ok false, log)
  else
    match (charSplit ' ' (pyStrip stdout.data)).get? 1 with
    | none => (.error .pyIndexError, log)
    | some field =>
      match charSplit '-' field with
      | [iv, ir] =>
        (.ok (eqOptStr iv info.pkgver && eqOptStr ir info.pkgrel), log)
      | _ => (.error .pyValueError, log)

/-- Effect of a successful `pacman -U <artifact>` on the installed
database: the package contained in the artifact file becomes installed at
its version-release. -/
def applyInstall (env : Env) (fileName : Option String) (w : World) : World :=
  match fileName with
  | some f =>
    match env.artifactContents f with
    | some (n, v, r) =>
      { w with installed := fun x => if x = n then some (v, r) else w.installed x }
    | none => w
  | none => w

/-- `install_package`: skip when installed at the target version-release;
otherwise take the first listing entry matching the pattern (which may be
`None`) and invoke `pacman -U --noconfirm <options> <file>`
(`check_rc=True`) — there is no guard for a missing artifact. -/
def install_package (env : Env) (opts : List String) (info : PkgInfo)
    (w : World) : Except Failure (Bool × World) × List Cmd :=
  match is_package_installed info w with
  | (.error e, l) => (.error e, l)
  | (.ok true, l) => (.ok (false, w), l)
  | (.ok false, l) =>
    let pkgFileName := w.listing.find? (fun f => matchesPkgRegex info f)
    let rc := env.installRc pkgFileName
    if rc = 0 then
      (.ok (true, applyInstall env pkgFileName w), l ++ [Cmd.pacmanU opts pkgFileName])
    else
      (.error (.checkRcFailed rc), l ++ [Cmd.pacmanU opts pkgFileName])

/-- The `for pkg_info in pkg_infos(...)` loop of `install_packages`. -/
def installLoop (env : Env) (opts : List String) :
    List PkgInfo → World → Except Failure (Bool × World) × List Cmd
  | [], w => (.ok (false, w), [])
  | info :: rest, w =>
    match install_package env opts info w with
    | (.error e, l1) => (.error e, l1)
    | (.ok (ch, w1), l1) =>
      match installLoop env opts rest w1 with
      | (.error e, l2) => (.error e, l1 ++ l2)
      | (.ok (chR, w2), l2) => (.ok (ch || chR, w2), l1 ++ l2)

/-- `install_packages(pkgbuild_dir, install_options, module)`. -/
def install_packages (env : Env) (opts : List String) (w : World) :
    Except Failure (Bool × World) × List Cmd :=
  let (text, l0) := srcinfo env
  match installLoop env opts (pkg_infos text) w with
  | (.error e, l) => (.error e, l0 ++ l)
  | (.ok (res, w1), l) => (.ok (res, w1), l0 ++ l)

/-! ## Module entry point (lines 197-211) -/

/-- Module parameters (after Ansible argument parsing, `check_mode=False`). -/
structure Params where
  pkgbuild_dir : String
  action : String
  install_options : List String

/-- The `result` dict passed to `module.exit_json`. -/
structure ModuleResult where
  changed : Bool
  package_paths : List (Option String)
deriving DecidableEq, Repr

/-- `run_module`: `os.chdir(pkgbuild_dir)`, run the build phase, store its
`changed` and `package_paths` in the result, and — when
`action == "install"` — run the install phase, whose returned `changed`
flag is discarded (the source drops `install_packages`' return value). -/
def run_module (env : Env) (p : Params) (w : World) :
    Except Failure (ModuleResult × World) × List Cmd :=
  match build_packages env p.pkgbuild_dir w with
  | (.error e, l1) => (.error e, l1)
  | (.ok ((changed, paths), w1), l1) =>
    if p.action = "install" then
      match install_packages env p.install_options w1 with
      | (.error e, l2) => (.error e, l1 ++ l2)
      | (.ok (_instChanged, w2), l2) =>
        (.ok ({ changed := changed, package_paths := paths }, w2), l1 ++ l2)
    else
      (.ok ({ changed := changed, package_paths := paths }, w1), l1)

/-! ## Observation helpers -/

/-- Is a log entry the build-tool invocation? -/
def isBuildCmd : Cmd → Bool
  | .buildCmd => true
  | _ => false

/-- Is a log entry a package-manager install invocation? -/
def isInstallCmd : Cmd → Bool
  | .pacmanU _ _ => true
  | _ => false

/-- Number of `extra-x86_64-build` invocations in a command log. -/
def countBuild (log : List Cmd) : Nat := (log.filter isBuildCmd).length

/-- Number of `pacman -U` invocations in a command log. -/
def countInstall (log : List Cmd) : Nat := (log.filter isInstallCmd).length

/-- The `changed` flag `run_module` reports, when the run succeeds. -/
def reportedChanged
    (r : Except Failure (ModuleResult × World) × List Cmd) : Option Bool :=
  match r.1 with
  | .ok (res, _) => some res.changed
  | .error _ => none

/-- The `package_paths` list `run_module` reports, when the run succeeds. -/
def reportedPaths
    (r : Except Failure (ModuleResult × World) × List Cmd) :
    Option (List (Option String)) :=
  match r.1 with
  | .ok (res, _) => some res.package_paths
  | .error _ => none

/-! ## Well-formedness predicates and invariants used by the theorems -/

/-- A package name as `pacman` accepts it: non-empty, no whitespace
characters (so the `"<name> <ver>-<rel>"` query line splits back
unambiguously). -/
def wfName (s : String) : Prop :=
  s.data ≠ [] ∧ ∀ c ∈ s.data, isPySpace c = false

/-- A version or release string as `pacman` accepts it: non-empty, no
whitespace and no `-` (pacman uses `-` to separate version from release). -/
def wfVerRel (s : String) : Prop :=
  s.data ≠ [] ∧ ∀ c ∈ s.data, isPySpace c = false ∧ c ≠ '-'

/-- The installed-state query reports `info` as installed at exactly its
target version-release. -/
def instOk (info : PkgInfo) (w : World) : Prop :=
  is_package_installed info w = (.ok true, [Cmd.pacmanQ info.pkgname])

/-- A package identity consistent with its environment: well-formed name,
the shared version/release scalars, and every artifact file matching its
pattern contains exactly this package at that version-release. -/
def goodInfo (env : Env) (vS rS : String) (info : PkgInfo) : Prop :=
  wfName info.pkgname ∧ info.pkgver = some vS ∧ info.pkgrel = some rS ∧
  ∀ f, matchesPkgRegex info f = true →
    env.artifactContents f = some (info.pkgname, vS, rS)

/-- Join lines with `'\n'` terminators (inverse of `charSplitlines` on
newline-free lines); used to state parsing claims about line placement. -/
def joinLines (ls : List (List Char)) : List Char :=
  ls.foldr (fun l acc => l ++ '\n' :: acc) []

/-! ## Concrete fixtures -/

/-- Metadata text of a single package `foo` at version `1.0`, release `1`. -/
def srcFoo : String := "pkgver = 1.0\npkgrel = 1\npkgname = foo\n"

/-- The identity `pkg_infos` extracts from `srcFoo`. -/
def fooId : PkgInfo := { pkgname := "foo", pkgver := some "1.0", pkgrel := some "1" }

/-- The canonical artifact file name for `fooId`. -/
def fooArt : String := "foo-1.0-1-x86_64.pkg.tar.zst"

/-- An environment whose srcinfo step yields `srcFoo`, whose build tool
produces `fooId`'s artifact, and whose installer always succeeds. -/
def baseEnv : Env :=
  { srcinfoRes := (0, srcFoo, "")
    buildRc := 0
    buildEffect := fun _ => [fooArt]
    installRc := fun _ => 0
    artifactContents := fun _ => some ("foo", "1.0", "1") }

/-- World with `fooId`'s artifact on disk and nothing installed. -/
def wArtOnly : World := { listing := [fooArt], installed := fun _ => none }

/-- World with `fooId`'s artifact on disk and `foo` installed at `1.0-1`. -/
def wConverged : World :=
  { listing := [fooArt]
    installed := fun n => if n = "foo" then some ("1.0", "1") else none }

/-- Empty world: nothing on disk, nothing installed. -/
def wEmpty : World := { listing := [], installed := fun _ => none }

/-- Install-mode parameters with no extra install options. -/
def pInstall : Params := { pkgbuild_dir := "/d", action := "install", install_options := [] }

/-- Environment whose metadata-generation step prints nothing. -/
def envNoMeta : Env := { baseEnv with srcinfoRes := (0, "", "") }

/-- Environment whose build tool exits 0 but produces no artifact. -/
def envBuildNoOut : Env := { baseEnv with buildEffect := id }

/-- Environment for a split package `foo`/`bar` sharing version `1.0`
release `1`; one build produces both artifacts. -/
def envSplit : Env :=
  { baseEnv with
    srcinfoRes := (0, "pkgver = 1.0\npkgrel = 1\npkgname = foo\npkgname = bar\n", "")
    buildEffect := fun _ => [fooArt, "bar-1.0-1-x86_64.pkg.tar.zst"] }

/-- Environment whose installer fails when handed a missing (`None`)
artifact argument, as the real command harness does. -/
def envInstallNone : Env :=
  { baseEnv with
    installRc := fun f => match f with | none => 1 | some _ => 0 }

/-- Metadata text containing a `pkgname` line but no version/release
scalars. -/
def srcNoScalars : String := "pkgname = foo\n"

/-- The identity `pkg_infos` extracts from `srcNoScalars`: both scalars
are `None`. -/
def noneId : PkgInfo := { pkgname := "foo", pkgver := none, pkgrel := none }

/-- The artifact name matched by the `None`-rendered pattern of `noneId`. -/
def noneArt : String := "foo-None-None-x86_64.pkg.tar.zst"

/-- Environment whose metadata lacks the version/release scalars and whose
build produces the `None`-named artifact. -/
def envNoScalars : Env :=
  { baseEnv with
    srcinfoRes := (0, srcNoScalars, "")
    buildEffect := fun _ => [noneArt] }

/-- Build-only parameters. -/
def pBuild : Params :=
  { pkgbuild_dir := "/d", action := "build", install_options := [] }

/-- Decidability of the well-formedness predicates (for concrete checks). -/
instance (s : String) : Decidable (wfName s) := by
  unfold wfName
  infer_instance

instance (s : String) : Decidable (wfVerRel s) := by
  unfold wfVerRel
  infer_instance

/-! ## Lemmas about the string primitives -/

theorem isPrefixOf_append_self (a b : List Char) : a.isPrefixOf (a ++ b) = true := by
  rw [List.isPrefixOf_iff_prefix]
  exact List.prefix_append a b

theorem charSplit_ne_nil (sep : Char) (cs : List Char) : charSplit sep cs ≠ [] := by
  induction cs with
  | nil => simp [charSplit]
  | cons c rest ih =>
    unfold charSplit
    cases h : charSplit sep rest with
    | nil => exact absurd h ih
    | cons g gs =>
      by_cases hc : c = sep <;> simp [hc]

theorem charSplit_no_sep (sep : Char) (cs : List Char) (h : ∀ c ∈ cs, c ≠ sep) :
    charSplit sep cs = [cs] := by
  induction cs with
  | nil => rfl
  | cons c rest ih =>
    have hrest := ih (fun x hx => h x (List.mem_cons_of_mem _ hx))
    have hc : c ≠ sep := h c (List.mem_cons_self _ _)
    simp [charSplit, hrest, hc]

theorem charSplit_append (sep : Char) (a b : List Char) (h : ∀ c ∈ a, c ≠ sep) :
    charSplit sep (a ++ sep :: b) = a :: charSplit sep b := by
  induction a with
  | nil =>
    cases hb : charSplit sep b with
    | nil => exact absurd hb (charSplit_ne_nil sep b)
    | cons g gs => simp [charSplit, hb]
  | cons c rest ih =>
    have hrest := ih (fun x hx => h x (List.mem_cons_of_mem _ hx))
    have hc : c ≠ sep := h c (List.mem_cons_self _ _)
    simp only [List.cons_append, charSplit, hc]
    simp only [List.append_eq]
    rw [hrest]
    simp

theorem pyStrip_line (d : List Char)
    (hhead : ∃ c t, d = c :: t ∧ isPySpace c = false)
    (hlast : ∃ c t, d.reverse = c :: t ∧ isPySpace c = false) :
    pyStrip (d ++ ['\n']) = d := by
  obtain ⟨c, t, hd, hc⟩ := hhead
  obtain ⟨c2, t2, hrev, hc2⟩ := hlast
  unfold pyStrip
  have h1 : (d ++ ['\n']).dropWhile isPySpace = d ++ ['\n'] := by
    rw [hd]
    simp [List.dropWhile_cons, hc]
  rw [h1]
  have h2 : (d ++ ['\n']).reverse = '\n' :: d.reverse := by simp
  rw [h2]
  have h3 : ('\n' :: d.reverse).dropWhile isPySpace = d.reverse.dropWhile isPySpace := by
    rw [List.dropWhile_cons, if_pos (by decide : isPySpace '\n' = true)]
  rw [h3]
  have h4 : d.reverse.dropWhile isPySpace = d.reverse := by
    rw [hrev]
    simp [List.dropWhile_cons, hc2]
  rw [h4, List.reverse_reverse]

theorem afterFirst_cons_neg (sep : List Char) (c : Char) (cs : List Char)
    (h : sep.isPrefixOf (c :: cs) = false) :
    afterFirst sep (c :: cs) = afterFirst sep cs := by
  simp [afterFirst, h]

theorem afterFirst_letters (ks : List Char) (hks : ∀ k ∈ ks, k ≠ ' ')
    (v : List Char) :
    afterFirst " = ".data (ks ++ ' ' :: '=' :: ' ' :: v) = some v := by
  induction ks with
  | nil =>
    have hp : (" = ".data).isPrefixOf (' ' :: '=' :: ' ' :: v) = true := by
      have : (' ' :: '=' :: ' ' :: v) = " = ".data ++ v := rfl
      rw [this]
      exact isPrefixOf_append_self _ _
    simp [afterFirst, hp]
  | cons k ks ih =>
    have hk : k ≠ ' ' := hks k (List.mem_cons_self _ _)
    have hrest := ih (fun x hx => hks x (List.mem_cons_of_mem _ hx))
    have hneg : (" = ".data).isPrefixOf (k :: (ks ++ ' ' :: '=' :: ' ' :: v)) = false := by
      show ((' ' == k) && _) = false
      have : (' ' == k) = false := by
        simp only [beq_eq_false_iff_ne]
        exact fun hh => hk hh.symm
      rw [this, Bool.false_and]
    rw [List.cons_append, afterFirst_cons_neg _ _ _ hneg, hrest]

/-! ## The `pacman -Q` line format round-trips through the parser -/

theorem nonspace_ne_space {c : Char} (h : isPySpace c = false) : c ≠ ' ' := by
  intro hc
  subst hc
  exact absurd h (by decide)

theorem is_package_installed_congr (info : PkgInfo) (w1 w2 : World)
    (h : w1.installed info.pkgname = w2.installed info.pkgname) :
    is_package_installed info w1 = is_package_installed info w2 := by
  unfold is_package_installed pacmanQOut
  rw [h]

theorem is_package_installed_not_installed (info : PkgInfo) (w : World)
    (hdb : w.installed info.pkgname = none) :
    is_package_installed info w = (.ok false, [Cmd.pacmanQ info.pkgname]) := by
  unfold is_package_installed pacmanQOut
  rw [hdb]
  simp

theorem is_package_installed_db (info : PkgInfo) (w : World) (v r : String)
    (hdb : w.installed info.pkgname = some (v, r))
    (hn : wfName info.pkgname) (hv : wfVerRel v) (hr : wfVerRel r) :
    is_package_installed info w =
      (.ok (eqOptStr v.data info.pkgver && eqOptStr r.data info.pkgrel),
       [Cmd.pacmanQ info.pkgname]) := by
  unfold is_package_installed pacmanQOut
  rw [hdb]
  have hsp : (" " : String).data = [' '] := rfl
  have hda : ("-" : String).data = ['-'] := rfl
  have hnl : ("\n" : String).data = ['\n'] := rfl
  have hdata : (info.pkgname ++ " " ++ v ++ "-" ++ r ++ "\n").data
      = (info.pkgname.data ++ ' ' :: (v.data ++ '-' :: r.data)) ++ ['\n'] := by
    simp [String.data_append, hsp, hda, hnl]
  have hstrip :
      pyStrip ((info.pkgname.data ++ ' ' :: (v.data ++ '-' :: r.data)) ++ ['\n'])
        = info.pkgname.data ++ ' ' :: (v.data ++ '-' :: r.data) := by
    apply pyStrip_line
    · obtain ⟨c, t, hct⟩ : ∃ c t, info.pkgname.data = c :: t := by
        cases hcase : info.pkgname.data with
        | nil => exact absurd hcase hn.1
        | cons c t => exact ⟨c, t, rfl⟩
      refine ⟨c, t ++ ' ' :: (v.data ++ '-' :: r.data), ?_, ?_⟩
      · rw [hct]; simp
      · exact hn.2 c (by rw [hct]; exact List.mem_cons_self _ _)
    · obtain ⟨c, t, hct⟩ : ∃ c t, r.data.reverse = c :: t := by
        cases hcase : r.data.reverse with
        | nil =>
          have : r.data = [] := by simpa using congrArg List.reverse hcase
          exact absurd this hr.1
        | cons c t => exact ⟨c, t, rfl⟩
      refine ⟨c, t ++ '-' :: v.data.reverse ++ (' ' :: info.pkgname.data.reverse), ?_, ?_⟩
      · simp [List.reverse_append, hct]
      · have hcmem : c ∈ r.data := by
          have : c ∈ r.data.reverse := by rw [hct]; exact List.mem_cons_self _ _
          simpa using this
        exact (hr.2 c hcmem).1
  have hsplit1 : charSplit ' ' (info.pkgname.data ++ ' ' :: (v.data ++ '-' :: r.data))
      = info.pkgname.data :: [v.data ++ '-' :: r.data] := by
    rw [charSplit_append ' ' _ _ (fun c hc => nonspace_ne_space (hn.2 c hc))]
    rw [charSplit_no_sep]
    intro c hc
    rcases List.mem_append.1 hc with h1 | h1
    · exact nonspace_ne_space (hv.2 c h1).1
    · rcases List.mem_cons.1 h1 with h2 | h2
      · subst h2; decide
      · exact nonspace_ne_space (hr.2 c h2).1
  have hsplit2 : charSplit '-' (v.data ++ '-' :: r.data) = [v.data, r.data] := by
    rw [charSplit_append '-' _ _ (fun c hc => (hv.2 c hc).2)]
    rw [charSplit_no_sep '-' _ (fun c hc => (hr.2 c hc).2)]
  simp only [hdata, hstrip, hsplit1, hsplit2]
  simp
  rw [hsplit2]

theorem eqOptStr_self (v : String) : eqOptStr v.data (some v) = true := by
  simp [eqOptStr]

theorem instOk_of_db (info : PkgInfo) (w : World) (v r : String)
    (hdb : w.installed info.pkgname = some (v, r))
    (hn : wfName info.pkgname) (hv : wfVerRel v) (hr : wfVerRel r)
    (hver : info.pkgver = some v) (hrel : info.pkgrel = some r) :
    instOk info w := by
  unfold instOk
  rw [is_package_installed_db info w v r hdb hn hv hr, hver, hrel,
    eqOptStr_self, eqOptStr_self]
  rfl

theorem pkg_exists_eq_find (cwd : String) (info : PkgInfo) (listing : List String) :
    pkg_exists cwd info listing
      = (listing.find? (fun f => matchesPkgRegex info f)).isSome := by
  unfold pkg_exists pkg_path
  cases listing.find? (fun f => matchesPkgRegex info f) <;> simp

theorem pkg_path_none_of_not_exists (cwd : String) (info : PkgInfo)
    (listing : List String) (h : pkg_exists cwd info listing = false) :
    pkg_path cwd info listing = none := by
  unfold pkg_exists at h
  cases hp : pkg_path cwd info listing with
  | none => rfl
  | some p => rw [hp] at h; simp at h

/-! ## Lemmas about `pkg_infos` -/

theorem mem_pkg_infos_fields (s : String) (info : PkgInfo)
    (h : info ∈ pkg_infos s) :
    info.pkgver = (scanVersionInfo s).1 ∧ info.pkgrel = (scanVersionInfo s).2 := by
  unfold pkg_infos at h
  simp only [List.mem_filterMap] at h
  obtain ⟨line, _, hline⟩ := h
  by_cases hp : "pkgname =".data.isPrefixOf (pyStrip line) = true
  · simp only [hp, if_true] at hline
    cases hline
    exact ⟨rfl, rfl⟩
  · simp only [Bool.not_eq_true] at hp
    simp [hp] at hline

theorem scanLine_skip (acc : Option String × Option String) (line : List Char)
    (h1 : "pkgver =".data.isPrefixOf (pyStrip line) = false)
    (h2 : "pkgrel =".data.isPrefixOf (pyStrip line) = false) :
    scanLine acc line = acc := by
  simp [scanLine, h1, h2]

theorem scanLine_fst_of_no_ver (acc : Option String × Option String)
    (line : List Char)
    (h1 : "pkgver =".data.isPrefixOf (pyStrip line) = false) :
    (scanLine acc line).1 = acc.1 := by
  by_cases h2 : "pkgrel =".data.isPrefixOf (pyStrip line) = true <;>
    simp [scanLine, h1, h2]

theorem foldl_scanLine_fst (lines : List (List Char))
    (h : ∀ L ∈ lines, "pkgver =".data.isPrefixOf (pyStrip L) = false) :
    ∀ acc, (lines.foldl scanLine acc).1 = acc.1 := by
  induction lines with
  | nil => intro acc; rfl
  | cons L rest ih =>
    intro acc
    rw [List.foldl_cons, ih (fun x hx => h x (List.mem_cons_of_mem _ hx)),
      scanLine_fst_of_no_ver _ _ (h L (List.mem_cons_self _ _))]

theorem charSplitlines_cons (L rest : List Char) (h : '\n' ∉ L) :
    charSplitlines (L ++ '\n' :: rest) = L :: charSplitlines rest := by
  unfold charSplitlines
  rw [charSplit_append '\n' L rest (fun c hc heq => h (heq ▸ hc))]
  cases hp : charSplit '\n' rest with
  | nil => exact absurd hp (charSplit_ne_nil _ _)
  | cons g gs =>
    dsimp only
    rw [List.getLast?_cons_cons]
    by_cases hl : (g :: gs).getLast? = some [] <;> simp [hl]

theorem charSplitlines_joinLines (ls : List (List Char))
    (h : ∀ L ∈ ls, '\n' ∉ L) :
    charSplitlines (joinLines ls) = ls := by
  induction ls with
  | nil => rfl
  | cons L rest ih =>
    show charSplitlines (L ++ '\n' :: joinLines rest) = L :: rest
    rw [charSplitlines_cons L _ (h L (List.mem_cons_self _ _)),
      ih (fun x hx => h x (List.mem_cons_of_mem _ hx))]

/-! ## Build-phase lemmas -/

theorem buildLoop_all_exist (env : Env) (cwd : String) (infos : List PkgInfo)
    (w : World) (h : ∀ i ∈ infos, pkg_exists cwd i w.listing = true) :
    buildLoop env cwd infos w =
      (.ok ((false, infos.map fun i => pkg_path cwd i w.listing), w), []) := by
  induction infos with
  | nil => rfl
  | cons i rest ih =>
    have hi := h i (List.mem_cons_self _ _)
    have hrest := ih (fun x hx => h x (List.mem_cons_of_mem _ hx))
    unfold buildLoop
    simp only [build_package, hi, if_true]
    rw [hrest]
    simp

theorem buildLoop_post (env : Env) (cwd : String) (infos : List PkgInfo) :
    ∀ w res w1 log, buildLoop env cwd infos w = (.ok (res, w1), log) →
      (w1 = w ∧ log = [] ∧ ∀ i ∈ infos, pkg_exists cwd i w.listing = true) ∨
      (∃ l, w1.listing = env.buildEffect l) := by
  induction infos with
  | nil =>
    intro w res w1 log h
    unfold buildLoop at h
    simp only [Prod.mk.injEq, Except.ok.injEq] at h
    left
    refine ⟨h.1.2.symm, h.2.symm, by simp⟩
  | cons i rest ih =>
    intro w res w1 log h
    unfold buildLoop at h
    cases hbp : build_package env cwd i w with
    | mk out1 l1 =>
      rw [hbp] at h
      cases out1 with
      | error e => simp at h
      | ok v1 =>
        obtain ⟨⟨ch, p⟩, w2⟩ := v1
        dsimp only at h
        cases hrec : buildLoop env cwd rest w2 with
        | mk out2 l2 =>
          rw [hrec] at h
          cases out2 with
          | error e => simp at h
          | ok v2 =>
            obtain ⟨⟨chR, ps⟩, w3⟩ := v2
            simp only [Prod.mk.injEq, Except.ok.injEq] at h
            have hw1 : w1 = w3 := h.1.2.symm
            have hlog : log = l1 ++ l2 := h.2.symm
            unfold build_package at hbp
            by_cases hex : pkg_exists cwd i w.listing = true
            · rw [if_pos hex] at hbp
              simp only [Prod.mk.injEq, Except.ok.injEq] at hbp
              have hw2 : w2 = w := hbp.1.2.symm
              have hl1 : l1 = [] := hbp.2.symm
              rcases ih w2 _ _ _ hrec with ⟨h31, hl2, hall⟩ | ⟨l, hl⟩
              · left
                refine ⟨by rw [hw1, h31, hw2], by rw [hlog, hl1, hl2]; rfl, ?_⟩
                intro x hx
                rcases List.mem_cons.1 hx with hh | hh
                · subst hh; exact hex
                · rw [← hw2]; exact hall x hh
              · right; exact ⟨l, by rw [hw1]; exact hl⟩
            · rw [if_neg hex] at hbp
              by_cases hrc : env.buildRc = 0
              · rw [if_pos hrc] at hbp
                simp only [Prod.mk.injEq, Except.ok.injEq] at hbp
                have hw2 : w2 = { w with listing := env.buildEffect w.listing } :=
                  hbp.1.2.symm
                rcases ih w2 _ _ _ hrec with ⟨h31, _, _⟩ | ⟨l, hl⟩
                · right
                  exact ⟨w.listing, by rw [hw1, h31, hw2]⟩
                · right; exact ⟨l, by rw [hw1]; exact hl⟩
              · rw [if_neg hrc] at hbp
                simp at hbp

theorem buildLoop_installed (env : Env) (cwd : String) (infos : List PkgInfo) :
    ∀ w res w1 log, buildLoop env cwd infos w = (.ok (res, w1), log) →
      w1.installed = w.installed := by
  induction infos with
  | nil =>
    intro w res w1 log h
    unfold buildLoop at h
    simp only [Prod.mk.injEq, Except.ok.injEq] at h
    rw [h.1.2.symm]
  | cons i rest ih =>
    intro w res w1 log h
    unfold buildLoop at h
    cases hbp : build_package env cwd i w with
    | mk out1 l1 =>
      rw [hbp] at h
      cases out1 with
      | error e => simp at h
      | ok v1 =>
        obtain ⟨⟨ch, p⟩, w2⟩ := v1
        dsimp only at h
        cases hrec : buildLoop env cwd rest w2 with
        | mk out2 l2 =>
          rw [hrec] at h
          cases out2 with
          | error e => simp at h
          | ok v2 =>
            obtain ⟨⟨chR, ps⟩, w3⟩ := v2
            simp only [Prod.mk.injEq, Except.ok.injEq] at h
            have hw1 : w1 = w3 := h.1.2.symm
            have h23 : w3.installed = w2.installed := ih w2 _ _ _ hrec
            have h2w : w2.installed = w.installed := by
              unfold build_package at hbp
              by_cases hex : pkg_exists cwd i w.listing = true
              · rw [if_pos hex] at hbp
                simp only [Prod.mk.injEq, Except.ok.injEq] at hbp
                rw [← hbp.1.2]
              · rw [if_neg hex] at hbp
                by_cases hrc : env.buildRc = 0
                · rw [if_pos hrc] at hbp
                  simp only [Prod.mk.injEq, Except.ok.injEq] at hbp
                  rw [← hbp.1.2]
                · rw [if_neg hrc] at hbp
                  simp at hbp
            rw [hw1, h23, h2w]

/-! ## Install-phase lemmas -/

theorem is_package_installed_log (info : PkgInfo) (w : World) :
    (is_package_installed info w).2 = [Cmd.pacmanQ info.pkgname] := by
  unfold is_package_installed pacmanQOut
  cases w.installed info.pkgname with
  | none => simp
  | some vr =>
    obtain ⟨v, r⟩ := vr
    dsimp only
    rw [if_neg (by decide : ¬((0 : Int) ≠ 0))]
    cases (charSplit ' '
        (pyStrip (info.pkgname ++ " " ++ v ++ "-" ++ r ++ "\n").data)).get? 1 with
    | none => rfl
    | some field =>
      dsimp only
      cases hsp : charSplit '-' field with
      | nil => rfl
      | cons a t =>
        cases t with
        | nil => rfl
        | cons b t2 => cases t2 with
          | nil => rfl
          | cons c t3 => rfl

theorem install_package_skip (env : Env) (opts : List String) (info : PkgInfo)
    (w : World) (h : instOk info w) :
    install_package env opts info w = (.ok (false, w), [Cmd.pacmanQ info.pkgname]) := by
  have h' : is_package_installed info w = (.ok true, [Cmd.pacmanQ info.pkgname]) := h
  unfold install_package
  rw [h']

theorem installLoop_noop (env : Env) (opts : List String) (infos : List PkgInfo)
    (w : World) (h : ∀ i ∈ infos, instOk i w) :
    installLoop env opts infos w
      = (.ok (false, w), infos.map fun i => Cmd.pacmanQ i.pkgname) := by
  induction infos with
  | nil => rfl
  | cons i rest ih =>
    unfold installLoop
    rw [install_package_skip env opts i w (h i (List.mem_cons_self _ _))]
    dsimp only
    rw [ih (fun x hx => h x (List.mem_cons_of_mem _ hx))]
    simp

theorem install_package_step (env : Env) (opts : List String) (vS rS : String)
    (info : PkgInfo) (w : World) (ch : Bool) (w1 : World) (log : List Cmd)
    (hg : goodInfo env vS rS info)
    (hwfv : wfVerRel vS) (hwfr : wfVerRel rS)
    (hart : (w.listing.find? fun f => matchesPkgRegex info f).isSome = true)
    (hrun : install_package env opts info w = (.ok (ch, w1), log)) :
    w1.listing = w.listing ∧ instOk info w1 ∧
    ∀ info2, info2.pkgver = some vS → info2.pkgrel = some rS →
      wfName info2.pkgname → instOk info2 w → instOk info2 w1 := by
  obtain ⟨hn, hver, hrel, hcont⟩ := hg
  unfold install_package at hrun
  cases hq : is_package_installed info w with
  | mk out l =>
    have hl : l = [Cmd.pacmanQ info.pkgname] := by
      have := is_package_installed_log info w
      rw [hq] at this
      exact this
    rw [hq] at hrun
    cases out with
    | error e => simp at hrun
    | ok b =>
      cases b with
      | true =>
        simp only [Prod.mk.injEq, Except.ok.injEq] at hrun
        have hw : w1 = w := hrun.1.2.symm
        subst hw
        refine ⟨rfl, ?_, fun info2 _ _ _ hok => hok⟩
        unfold instOk
        rw [hq, hl]
      | false =>
        dsimp only at hrun
        obtain ⟨f, hf⟩ := Option.isSome_iff_exists.1 hart
        rw [hf] at hrun
        by_cases hrc : env.installRc (some f) = 0
        · rw [if_pos hrc] at hrun
          simp only [Prod.mk.injEq, Except.ok.injEq] at hrun
          have hw : w1 = applyInstall env (some f) w := hrun.1.2.symm
          have hmatch : matchesPkgRegex info f = true := List.find?_some hf
          have hcf := hcont f hmatch
          have hw1 : w1 = { w with installed :=
              fun x => if x = info.pkgname then some (vS, rS) else w.installed x } := by
            rw [hw]
            unfold applyInstall
            dsimp only
            rw [hcf]
          refine ⟨by rw [hw1], ?_, ?_⟩
          · refine instOk_of_db info w1 vS rS ?_ hn hwfv hwfr hver hrel
            rw [hw1]
            simp
          · intro info2 hver2 hrel2 hn2 hok2
            by_cases heq : info2.pkgname = info.pkgname
            · refine instOk_of_db info2 w1 vS rS ?_ hn2 hwfv hwfr hver2 hrel2
              rw [hw1]
              simp [heq]
            · have hsame : w1.installed info2.pkgname = w.installed info2.pkgname := by
                rw [hw1]
                simp [heq]
              unfold instOk
              rw [is_package_installed_congr info2 w1 w hsame]
              exact hok2
        · rw [if_neg hrc] at hrun
          simp at hrun

theorem installLoop_establishes (env : Env) (opts : List String) (vS rS : String)
    (hwfv : wfVerRel vS) (hwfr : wfVerRel rS) (infos : List PkgInfo)
    (hg : ∀ i ∈ infos, goodInfo env vS rS i) :
    ∀ w ch w1 log,
      (∀ i ∈ infos, (w.listing.find? fun f => matchesPkgRegex i f).isSome = true) →
      installLoop env opts infos w = (.ok (ch, w1), log) →
      w1.listing = w.listing ∧ (∀ i ∈ infos, instOk i w1) ∧
      ∀ info2, info2.pkgver = some vS → info2.pkgrel = some rS →
        wfName info2.pkgname → instOk info2 w → instOk info2 w1 := by
  induction infos with
  | nil =>
    intro w ch w1 log _ h
    unfold installLoop at h
    simp only [Prod.mk.injEq, Except.ok.injEq] at h
    rw [← h.1.2]
    exact ⟨rfl, by simp, fun info2 _ _ _ hok => hok⟩
  | cons i rest ih =>
    intro w ch w1 log hart h
    unfold installLoop at h
    cases hstep : install_package env opts i w with
    | mk out1 l1 =>
      rw [hstep] at h
      cases out1 with
      | error e => simp at h
      | ok v1 =>
        obtain ⟨ch1, w2⟩ := v1
        dsimp only at h
        cases hrec : installLoop env opts rest w2 with
        | mk out2 l2 =>
          rw [hrec] at h
          cases out2 with
          | error e => simp at h
          | ok v2 =>
            obtain ⟨chR, w3⟩ := v2
            simp only [Prod.mk.injEq, Except.ok.injEq] at h
            have hw1 : w1 = w3 := h.1.2.symm
            obtain ⟨hlist12, hOkI, hpres1⟩ :=
              install_package_step env opts vS rS i w ch1 w2 l1
                (hg i (List.mem_cons_self _ _)) hwfv hwfr
                (hart i (List.mem_cons_self _ _)) hstep
            obtain ⟨hlist23, hOkRest, hpres2⟩ :=
              ih (fun x hx => hg x (List.mem_cons_of_mem _ hx)) w2 chR w3 l2
                (by
                  intro x hx
                  rw [hlist12]
                  exact hart x (List.mem_cons_of_mem _ hx))
                hrec
            subst hw1
            refine ⟨by rw [hlist23, hlist12], ?_, ?_⟩
            · intro x hx
              rcases List.mem_cons.1 hx with hh | hh
              · subst hh
                obtain ⟨hnx, hverx, hrelx, _⟩ := hg x (List.mem_cons_self _ _)
                exact hpres2 x hverx hrelx hnx hOkI
              · exact hOkRest x hh
            · intro info2 hver2 hrel2 hn2 hok2
              exact hpres2 info2 hver2 hrel2 hn2
                (hpres1 info2 hver2 hrel2 hn2 hok2)

/-! ## Wrapper equations and log-count lemmas -/

theorem build_packages_eq (env : Env) (cwd : String) (w : World) :
    build_packages env cwd w =
      match buildLoop env cwd (pkg_infos (srcinfoStdout env)) w with
      | (.error e, l) => (.error e, Cmd.srcinfoCmd :: l)
      | (.ok (res, w1), l) => (.ok (res, w1), Cmd.srcinfoCmd :: l) := by
  unfold build_packages srcinfo srcinfoStdout
  dsimp only
  cases h : buildLoop env cwd (pkg_infos env.srcinfoRes.2.1) w with
  | mk out l =>
    cases out with
    | error e => rfl
    | ok v => obtain ⟨res, w1⟩ := v; rfl

theorem install_packages_eq (env : Env) (opts : List String) (w : World) :
    install_packages env opts w =
      match installLoop env opts (pkg_infos (srcinfoStdout env)) w with
      | (.error e, l) => (.error e, Cmd.srcinfoCmd :: l)
      | (.ok (res, w1), l) => (.ok (res, w1), Cmd.srcinfoCmd :: l) := by
  unfold install_packages srcinfo srcinfoStdout
  dsimp only
  cases h : installLoop env opts (pkg_infos env.srcinfoRes.2.1) w with
  | mk out l =>
    cases out with
    | error e => rfl
    | ok v => obtain ⟨res, w1⟩ := v; rfl

theorem countBuild_nil : countBuild [] = 0 := rfl

theorem countBuild_cons (c : Cmd) (l : List Cmd) :
    countBuild (c :: l) = (if isBuildCmd c then 1 else 0) + countBuild l := by
  unfold countBuild
  rw [List.filter_cons]
  by_cases h : isBuildCmd c = true <;> simp [h, Nat.add_comm]

theorem countInstall_cons (c : Cmd) (l : List Cmd) :
    countInstall (c :: l) = (if isInstallCmd c then 1 else 0) + countInstall l := by
  unfold countInstall
  rw [List.filter_cons]
  by_cases h : isInstallCmd c = true <;> simp [h, Nat.add_comm]

theorem countBuild_append (l1 l2 : List Cmd) :
    countBuild (l1 ++ l2) = countBuild l1 + countBuild l2 := by
  unfold countBuild
  rw [List.filter_append, List.length_append]

theorem countInstall_append (l1 l2 : List Cmd) :
    countInstall (l1 ++ l2) = countInstall l1 + countInstall l2 := by
  unfold countInstall
  rw [List.filter_append, List.length_append]

theorem countBuild_map_pacmanQ (infos : List PkgInfo) :
    countBuild (infos.map fun i => Cmd.pacmanQ i.pkgname) = 0 := by
  induction infos with
  | nil => rfl
  | cons i rest ih =>
    rw [List.map_cons, countBuild_cons]
    simpa [isBuildCmd] using ih

theorem countInstall_map_pacmanQ (infos : List PkgInfo) :
    countInstall (infos.map fun i => Cmd.pacmanQ i.pkgname) = 0 := by
  induction infos with
  | nil => rfl
  | cons i rest ih =>
    rw [List.map_cons, countInstall_cons]
    simpa [isInstallCmd] using ih

/-- For the split-package claim: whenever at least one identity of the batch
has no artifact yet, the per-identity loop performs exactly one build
invocation (the first missing identity triggers it, after which the build's
output satisfies every identity), and every resolved path is present. -/
theorem buildLoop_single_build (env : Env) (cwd : String) (infos : List PkgInfo)
    (hrc : env.buildRc = 0)
    (hbuildAll : ∀ l, ∀ i ∈ infos, pkg_exists cwd i (env.buildEffect l) = true) :
    ∀ w, (∃ i ∈ infos, pkg_exists cwd i w.listing = false) →
      ∃ paths w1 log,
        buildLoop env cwd infos w = (.ok ((true, paths), w1), log) ∧
        countBuild log = 1 ∧ paths.length = infos.length ∧
        ∀ path ∈ paths, path.isSome = true := by
  induction infos with
  | nil =>
    intro w hmiss
    obtain ⟨i, hi, _⟩ := hmiss
    exact absurd hi (List.not_mem_nil i)
  | cons i rest ih =>
    intro w hmiss
    by_cases hex : pkg_exists cwd i w.listing = true
    · obtain ⟨j, hj, hjm⟩ := hmiss
      have hjrest : j ∈ rest := by
        rcases List.mem_cons.1 hj with hh | hh
        · subst hh; rw [hex] at hjm; exact absurd hjm (by simp)
        · exact hh
      obtain ⟨paths, w1, log, hloop, hcount, hlen, hsome⟩ :=
        ih (fun l x hx => hbuildAll l x (List.mem_cons_of_mem _ hx)) w
          ⟨j, hjrest, hjm⟩
      refine ⟨pkg_path cwd i w.listing :: paths, w1, log, ?_, ?_, ?_, ?_⟩
      · unfold buildLoop
        simp only [build_package, hex, if_true]
        rw [hloop]
        simp
      · exact hcount
      · simp [hlen]
      · intro path hp
        rcases List.mem_cons.1 hp with hh | hh
        · subst hh
          unfold pkg_exists at hex
          exact hex
        · exact hsome path hh
    · have hex' : pkg_exists cwd i w.listing = false := by
        simpa using hex
      have hw1 : ∀ x ∈ rest,
          pkg_exists cwd x (env.buildEffect w.listing) = true :=
        fun x hx => hbuildAll w.listing x (List.mem_cons_of_mem _ hx)
      refine ⟨pkg_path cwd i (env.buildEffect w.listing) ::
          (rest.map fun x =>
            pkg_path cwd x (env.buildEffect w.listing)),
        { w with listing := env.buildEffect w.listing }, [Cmd.buildCmd], ?_, ?_, ?_, ?_⟩
      · unfold buildLoop
        simp only [build_package, hex', Bool.false_eq_true, if_false, hrc, if_pos]
        rw [buildLoop_all_exist env cwd rest _ hw1]
        simp
      · rfl
      · simp
      · intro path hp
        rcases List.mem_cons.1 hp with hh | hh
        · subst hh
          have := hbuildAll w.listing i (List.mem_cons_self _ _)
          unfold pkg_exists at this
          exact this
        · simp only [List.mem_map] at hh
          obtain ⟨x, hx, hpx⟩ := hh
          rw [← hpx]
          have := hw1 x hx
          unfold pkg_exists at this
          exact this

/-- When the metadata yields no identities, both phases loop over nothing:
the run succeeds, reports no change and issues only the srcinfo command
(twice in install mode). -/
theorem run_module_empty (env : Env) (p : Params) (w : World)
    (h : pkg_infos (srcinfoStdout env) = []) :
    run_module env p w =
      (.ok ({ changed := false, package_paths := [] }, w),
       if p.action = "install" then [Cmd.srcinfoCmd, Cmd.srcinfoCmd]
       else [Cmd.srcinfoCmd]) := by
  unfold run_module
  rw [build_packages_eq, h]
  show (if p.action = "install" then _ else _) = _
  by_cases hact : p.action = "install"
  · rw [if_pos hact, if_pos hact, install_packages_eq, h]
    rfl
  · rw [if_neg hact, if_neg hact]

/-! ## Claims -/

/-- C10: the exit status and error stream of the metadata-generation
command are ignored — `srcinfo` returns the captured standard output
whatever `rc`/`err` are; a failing generator that prints nothing yields an
empty identity list, so the whole run is a successful no-op (changed
`false`, no paths, zero build and install invocations). -/
theorem c10_generator_exit_ignored (env : Env) (p : Params) (w : World)
    (rc : Int) (err : String) :
    (srcinfo { env with srcinfoRes := (rc, srcinfoStdout env, err) }).1
        = srcinfoStdout env ∧
    reportedChanged (run_module { env with srcinfoRes := (rc, "", err) } p w)
        = some false ∧
    reportedPaths (run_module { env with srcinfoRes := (rc, "", err) } p w)
        = some [] ∧
    countBuild (run_module { env with srcinfoRes := (rc, "", err) } p w).2 = 0 ∧
    countInstall (run_module { env with srcinfoRes := (rc, "", err) } p w).2 = 0 := by
  have hrun := run_module_empty { env with srcinfoRes := (rc, "", err) } p w rfl
  refine ⟨rfl, ?_, ?_, ?_, ?_⟩ <;> rw [hrun]
  · rfl
  · rfl
  · by_cases hact : p.action = "install"
    · rw [if_pos hact]; rfl
    · rw [if_neg hact]; rfl
  · by_cases hact : p.action = "install"
    · rw [if_pos hact]; rfl
    · rw [if_neg hact]; rfl

/-- C1: counter-evidence that the reported `changed` flag is the OR of the
build and install phases: in an install-mode run where the artifact already
exists (build phase unchanged) but the package is not installed, one
`pacman -U` invocation is issued yet the module reports `changed = false`,
because `run_module` discards the flag returned by `install_packages`. -/
theorem c1_install_changed_dropped :
    reportedChanged (run_module baseEnv pInstall wArtOnly) = some false ∧
    countInstall (run_module baseEnv pInstall wArtOnly).2 = 1 ∧
    countBuild (run_module baseEnv pInstall wArtOnly).2 = 0 := by
  decide

/-- C3 (counterexample): both failure branches of the claim are refuted.
Metadata yielding zero identities does not make reconciliation fail —
there is no `MalformedMetadataError` anywhere in the module; the run
succeeds as a no-op (`changed = false`, empty path list) and the log holds
only the two srcinfo invocations.  Absent version/release scalars do not
fail either, nor do they keep invocations at zero: extraction still yields
an identity (with `None` scalars), and a build-mode run on it issues one
build invocation and completes successfully. -/
theorem c3_counterexample_no_failure :
    reportedChanged (run_module envNoMeta pInstall wEmpty) = some false ∧
    reportedPaths (run_module envNoMeta pInstall wEmpty) = some [] ∧
    (run_module envNoMeta pInstall wEmpty).2 = [Cmd.srcinfoCmd, Cmd.srcinfoCmd] ∧
    pkg_infos srcNoScalars = [noneId] ∧
    reportedChanged (run_module envNoScalars pBuild wEmpty) = some true ∧
    countBuild (run_module envNoScalars pBuild wEmpty).2 = 1 := by
  decide

/-- C3 (amended): (i) metadata text yielding zero identities does not make
reconciliation fail — it succeeds as a no-op with `changed = false`, an
empty path list and zero build/install invocations, the module having no
`MalformedMetadataError`; (ii) absent version/release scalars do not fail
fast either: every identity extracted from a text whose scan collected no
scalars carries `None` in both fields, rendered literally as `None` in the
artifact pattern with which reconciliation then proceeds; (iii) a line
whose stripped form starts with none of the three recognised keys is
ignored by the parser. -/
theorem c3_amended_noop_and_unknown_lines (env : Env) (p : Params) (w : World)
    (L s s2 : String)
    (hempty : pkg_infos (srcinfoStdout env) = [])
    (hL1 : "pkgver =".data.isPrefixOf (pyStrip L.data) = false)
    (hL2 : "pkgrel =".data.isPrefixOf (pyStrip L.data) = false)
    (hL3 : "pkgname =".data.isPrefixOf (pyStrip L.data) = false)
    (hLn : '\n' ∉ L.data)
    (hverNone : (scanVersionInfo s2).1 = none)
    (hrelNone : (scanVersionInfo s2).2 = none) :
    reportedChanged (run_module env p w) = some false ∧
    reportedPaths (run_module env p w) = some [] ∧
    countBuild (run_module env p w).2 = 0 ∧
    countInstall (run_module env p w).2 = 0 ∧
    pkg_infos (L ++ "\n" ++ s) = pkg_infos s ∧
    ∀ info ∈ pkg_infos s2, info.pkgver = none ∧ info.pkgrel = none ∧
      pkgPrefixStr info = info.pkgname ++ "-None-None-" := by
  have hrun := run_module_empty env p w hempty
  have hlast : pkg_infos (L ++ "\n" ++ s) = pkg_infos s := by
    have hdata : (L ++ "\n" ++ s).data = L.data ++ '\n' :: s.data := by
      rw [String.data_append, String.data_append]
      show L.data ++ ['\n'] ++ s.data = _
      simp
    unfold pkg_infos
    rw [hdata, charSplitlines_cons _ _ hLn]
    dsimp only
    rw [List.foldl_cons, scanLine_skip _ _ hL1 hL2, List.filterMap_cons]
    simp [hL3]
  have hnone : ∀ info ∈ pkg_infos s2, info.pkgver = none ∧ info.pkgrel = none ∧
      pkgPrefixStr info = info.pkgname ++ "-None-None-" := by
    intro info hinfo
    obtain ⟨hv, hr⟩ := mem_pkg_infos_fields s2 info hinfo
    rw [hverNone] at hv
    rw [hrelNone] at hr
    refine ⟨hv, hr, ?_⟩
    unfold pkgPrefixStr
    rw [hv, hr]
    apply String.ext
    have h1 : ("-" : String).data = ['-'] := rfl
    have h2 : (fmtOpt none).data = ['N', 'o', 'n', 'e'] := rfl
    have h3 : ("-None-None-" : String).data
        = ['-', 'N', 'o', 'n', 'e', '-', 'N', 'o', 'n', 'e', '-'] := rfl
    simp [String.data_append, h1, h2, h3]
  refine ⟨?_, ?_, ?_, ?_, hlast, hnone⟩ <;> rw [hrun]
  · rfl
  · rfl
  · by_cases hact : p.action = "install"
    · rw [if_pos hact]; rfl
    · rw [if_neg hact]; rfl
  · by_cases hact : p.action = "install"
    · rw [if_pos hact]; rfl
    · rw [if_neg hact]; rfl

/-- C3 witness: all hypotheses hold at a concrete instance — empty
metadata, the unknown line `somekey = 1`, and the scalar-free metadata
`srcNoScalars`. -/
theorem c3_amended_noop_and_unknown_lines_witness :
    reportedChanged (run_module envNoMeta pInstall wEmpty) = some false ∧
    reportedPaths (run_module envNoMeta pInstall wEmpty) = some [] ∧
    countBuild (run_module envNoMeta pInstall wEmpty).2 = 0 ∧
    countInstall (run_module envNoMeta pInstall wEmpty).2 = 0 ∧
    pkg_infos ("somekey = 1" ++ "\n" ++ "pkgname = a\n")
      = pkg_infos "pkgname = a\n" ∧
    ∀ info ∈ pkg_infos srcNoScalars, info.pkgver = none ∧ info.pkgrel = none ∧
      pkgPrefixStr info = info.pkgname ++ "-None-None-" :=
  c3_amended_noop_and_unknown_lines envNoMeta pInstall wEmpty
    "somekey = 1" "pkgname = a\n" srcNoScalars (by decide) (by decide)
    (by decide) (by decide) (by decide) (by decide) (by decide)

/-- C9 (counterexample): with two `pkgver` lines, the extracted identity
carries the value of the **second** (last) occurrence, not the first: the
scan loop overwrites the pending scalar on every occurrence. -/
theorem c9_counterexample_last_wins :
    pkg_infos "pkgver = 1\npkgver = 2\npkgname = foo\n"
        = [{ pkgname := "foo", pkgver := some "2", pkgrel := none }] ∧
    ({ pkgname := "foo", pkgver := some "2", pkgrel := none } : PkgInfo)
        ≠ { pkgname := "foo", pkgver := some "1", pkgrel := none } := by
  decide

/-- C9 (amended): every `pkgver =` line overwrites the pending version
scalar, so the **last** occurrence's value is the one recorded for every
extracted identity (the claim said the first).  Stated for any line list
`pre ++ [pkgver line] ++ post` in which no later line sets `pkgver`. -/
theorem c9_amended_last_occurrence_wins (pre post : List (List Char))
    (v : List Char)
    (hpre : ∀ L ∈ pre, '\n' ∉ L) (hpost1 : ∀ L ∈ post, '\n' ∉ L)
    (hvn : '\n' ∉ v)
    (hpost : ∀ L ∈ post, "pkgver =".data.isPrefixOf (pyStrip L) = false)
    (hstrip : pyStrip ("pkgver = ".data ++ v) = "pkgver = ".data ++ v) :
    (scanVersionInfo
        (String.mk (joinLines (pre ++ ("pkgver = ".data ++ v) :: post)))).1
      = some (String.mk v) ∧
    ∀ info ∈ pkg_infos
        (String.mk (joinLines (pre ++ ("pkgver = ".data ++ v) :: post))),
      info.pkgver = some (String.mk v) := by
  have hnl : ∀ L ∈ pre ++ ("pkgver = ".data ++ v) :: post, '\n' ∉ L := by
    intro L hL
    rcases List.mem_append.1 hL with hh | hh
    · exact hpre L hh
    · rcases List.mem_cons.1 hh with hh2 | hh2
      · subst hh2
        intro hmem
        rcases List.mem_append.1 hmem with hh3 | hh3
        · exact absurd hh3 (by decide)
        · exact hvn hh3
      · exact hpost1 L hh2
  have hlines : charSplitlines
      (String.mk (joinLines (pre ++ ("pkgver = ".data ++ v) :: post))).data
      = pre ++ ("pkgver = ".data ++ v) :: post := by
    show charSplitlines (joinLines _) = _
    exact charSplitlines_joinLines _ hnl
  have hver : "pkgver =".data.isPrefixOf ("pkgver = ".data ++ v) = true := by
    show List.isPrefixOf "pkgver =".data ("pkgver =".data ++ (' ' :: v)) = true
    exact isPrefixOf_append_self _ _
  have hrel : "pkgrel =".data.isPrefixOf ("pkgver = ".data ++ v) = false := by
    show List.isPrefixOf ('p' :: 'k' :: 'g' :: 'r' :: 'e' :: 'l' :: ' ' :: '=' :: [])
      ('p' :: 'k' :: 'g' :: 'v' :: 'e' :: 'r' :: ' ' :: '=' :: ' ' :: v) = false
    simp [List.isPrefixOf]
  have hpart : pyPartition2 ("pkgver = ".data ++ v) " = ".data = v := by
    unfold pyPartition2
    have h1 : "pkgver = ".data ++ v = "pkgver".data ++ (' ' :: '=' :: ' ' :: v) := rfl
    rw [h1, afterFirst_letters "pkgver".data (by decide) v]
    rfl
  have hscan : ∀ acc, scanLine acc ("pkgver = ".data ++ v)
      = (some (String.mk v), acc.2) := by
    intro acc
    unfold scanLine
    rw [hstrip]
    simp only [hver, if_true, hrel, Bool.false_eq_true, if_false, hpart]
  have hfst : (scanVersionInfo
      (String.mk (joinLines (pre ++ ("pkgver = ".data ++ v) :: post)))).1
      = some (String.mk v) := by
    unfold scanVersionInfo
    rw [hlines, List.foldl_append, List.foldl_cons, hscan]
    exact foldl_scanLine_fst post hpost _
  refine ⟨hfst, ?_⟩
  intro info hinfo
  rw [(mem_pkg_infos_fields _ info hinfo).1, hfst]

/-- C9 witness: concrete instance `pkgver = 1`, then `pkgver = 2`, then
`pkgname = foo`: the scan records version `2`. -/
theorem c9_amended_last_occurrence_wins_witness :
    (scanVersionInfo (String.mk (joinLines
        (["pkgver = 1".data] ++ ("pkgver = ".data ++ "2".data)
          :: ["pkgname = foo".data])))).1 = some (String.mk "2".data) ∧
    ∀ info ∈ pkg_infos (String.mk (joinLines
        (["pkgver = 1".data] ++ ("pkgver = ".data ++ "2".data)
          :: ["pkgname = foo".data]))),
      info.pkgver = some (String.mk "2".data) :=
  c9_amended_last_occurrence_wins ["pkgver = 1".data] ["pkgname = foo".data]
    "2".data (by decide) (by decide) (by decide) (by decide) (by decide)

/-- C5 (counterexample): a build that exits 0 but produces no matching
artifact does **not** make reconciliation fail — `build_package` returns
success with `changed = true` and a `None` path; there is no
`BuildArtifactMissingError` in the module. -/
theorem c5_counterexample_silent_success :
    ∃ w1, build_package envBuildNoOut "/d" fooId wEmpty
      = (.ok ((true, none), w1), [Cmd.buildCmd]) := by
  exact ⟨_, rfl⟩

/-- C5 (amended): when the artifact is missing before the build and still
missing after a build that exits 0, `build_package` silently reports the
identity as built: it returns `(changed := true, path := None)` with no
error raised. -/
theorem c5_amended_missing_artifact_silent (env : Env) (cwd : String)
    (info : PkgInfo) (w : World)
    (hrc : env.buildRc = 0)
    (h1 : pkg_exists cwd info w.listing = false)
    (h2 : pkg_exists cwd info (env.buildEffect w.listing) = false) :
    build_package env cwd info w =
      (.ok ((true, none), { w with listing := env.buildEffect w.listing }),
       [Cmd.buildCmd]) := by
  unfold build_package
  rw [if_neg (by simp [h1]), if_pos hrc]
  dsimp only
  rw [pkg_path_none_of_not_exists cwd info _ h2]

/-- C5 witness: the amended statement applied to the concrete environment
whose build produces nothing. -/
theorem c5_amended_missing_artifact_silent_witness :
    build_package envBuildNoOut "/d" fooId wEmpty =
      (.ok ((true, none),
        { wEmpty with listing := envBuildNoOut.buildEffect wEmpty.listing }),
       [Cmd.buildCmd]) :=
  c5_amended_missing_artifact_silent envBuildNoOut "/d" fooId wEmpty
    rfl (by decide) (by decide)

/-- C8 (counterexample): an identity that needs installing but has no
locatable artifact does **not** produce an `ArtifactNotFoundError`: the
module goes on to issue the `pacman -U` invocation with a `None` artifact
argument, and the run aborts only through that invocation's failure. -/
theorem c8_counterexample_no_artifact_error :
    install_package envInstallNone [] fooId wEmpty
      = (.error (.checkRcFailed 1),
         [Cmd.pacmanQ "foo", Cmd.pacmanU [] none]) ∧
    Failure.checkRcFailed 1 ≠ Failure.artifactNotFound := by
  exact ⟨rfl, by decide⟩

/-- C8 (amended): when the installed-state query reports not-installed and
no listing entry matches the identity's pattern, the module does not fail
with `ArtifactNotFoundError`; it issues the install invocation with a
missing (`None`) artifact argument — failure, if any, comes from that
invocation via the command harness. -/
theorem c8_amended_install_invoked_with_none (env : Env)
    (opts : List String) (info : PkgInfo) (w : World)
    (hq : is_package_installed info w = (.ok false, [Cmd.pacmanQ info.pkgname]))
    (hfind : w.listing.find? (fun f => matchesPkgRegex info f) = none) :
    (install_package env opts info w).1 ≠ .error .artifactNotFound ∧
    (install_package env opts info w).2
      = [Cmd.pacmanQ info.pkgname, Cmd.pacmanU opts none] := by
  unfold install_package
  rw [hq]
  dsimp only
  rw [hfind]
  by_cases hrc : env.installRc none = 0
  · rw [if_pos hrc]
    exact ⟨by simp, rfl⟩
  · rw [if_neg hrc]
    exact ⟨by simp, rfl⟩

/-- C8 witness: the amended statement at the concrete empty world. -/
theorem c8_amended_install_invoked_with_none_witness :
    (install_package envInstallNone [] fooId wEmpty).1
        ≠ .error .artifactNotFound ∧
    (install_package envInstallNone [] fooId wEmpty).2
      = [Cmd.pacmanQ "foo", Cmd.pacmanU [] none] :=
  c8_amended_install_invoked_with_none envInstallNone [] fooId wEmpty
    (by rfl) (by rfl)

/-- C6: artifact resolution is an exact whole-string match on the escaped
`name-version-release-` prefix plus an `[a-z0-9_]` architecture segment and
a `zst`/`xz` archive suffix: for `{name: foo, version: 1.0, release: 1}`,
`foo-1.0-1-x86_64.pkg.tar.zst` matches and
`foo-bar-1.0-1-x86_64.pkg.tar.zst` does not; resolving over a listing
containing both (in either order) yields the former, and no listing
whatsoever can resolve to the latter. -/
theorem c6_exact_whole_string_match (listing : List String) (p : String)
    (hp : pkg_path "/d" fooId listing = some p) :
    p ≠ "/d/foo-bar-1.0-1-x86_64.pkg.tar.zst" ∧
    matchesPkgRegex fooId "foo-1.0-1-x86_64.pkg.tar.zst" = true ∧
    matchesPkgRegex fooId "foo-bar-1.0-1-x86_64.pkg.tar.zst" = false ∧
    pkg_path "/d" fooId
        ["foo-1.0-1-x86_64.pkg.tar.zst", "foo-bar-1.0-1-x86_64.pkg.tar.zst"]
      = some "/d/foo-1.0-1-x86_64.pkg.tar.zst" ∧
    pkg_path "/d" fooId
        ["foo-bar-1.0-1-x86_64.pkg.tar.zst", "foo-1.0-1-x86_64.pkg.tar.zst"]
      = some "/d/foo-1.0-1-x86_64.pkg.tar.zst" := by
  refine ⟨?_, by decide, by decide, by decide, by decide⟩
  unfold pkg_path at hp
  cases hf : listing.find? (fun f => matchesPkgRegex fooId f) with
  | none => rw [hf] at hp; simp at hp
  | some f =>
    rw [hf] at hp
    have hmatch : matchesPkgRegex fooId f = true := List.find?_some hf
    simp only [Option.some.injEq] at hp
    intro hcontra
    have hfd : f = "foo-bar-1.0-1-x86_64.pkg.tar.zst" := by
      have heq : "/d" ++ "/" ++ f
          = "/d" ++ "/" ++ "foo-bar-1.0-1-x86_64.pkg.tar.zst" := by
        rw [hp, hcontra]
        decide
      have hd := congrArg String.data heq
      rw [String.data_append, String.data_append,
        String.data_append, String.data_append] at hd
      exact String.ext (List.append_cancel_left hd)
    rw [hfd] at hmatch
    exact absurd hmatch (by decide)

/-- C6 witness: a listing holding only the exact artifact resolves it, and
the resolved path is not the overlapping-prefix one. -/
theorem c6_exact_whole_string_match_witness :
    pkg_path "/d" fooId ["foo-1.0-1-x86_64.pkg.tar.zst"]
        = some "/d/foo-1.0-1-x86_64.pkg.tar.zst" ∧
    ("/d/foo-1.0-1-x86_64.pkg.tar.zst" : String)
        ≠ "/d/foo-bar-1.0-1-x86_64.pkg.tar.zst" :=
  ⟨by decide,
   (c6_exact_whole_string_match ["foo-1.0-1-x86_64.pkg.tar.zst"]
     "/d/foo-1.0-1-x86_64.pkg.tar.zst" (by decide)).1⟩

/-- The parsed-fields comparison succeeds exactly when the identity's
`pkgver`/`pkgrel` equal the installed pair. -/
theorem eqOptStr_and_iff (v r : String) (info : PkgInfo) :
    (eqOptStr v.data info.pkgver && eqOptStr r.data info.pkgrel) = true ↔
    (info.pkgver = some v ∧ info.pkgrel = some r) := by
  cases hv : info.pkgver with
  | none => simp [eqOptStr]
  | some u =>
    cases hr : info.pkgrel with
    | none => simp [eqOptStr]
    | some t =>
      simp only [eqOptStr, Bool.and_eq_true, decide_eq_true_eq,
        Option.some.injEq]
      constructor
      · rintro ⟨h1, h2⟩
        exact ⟨(String.ext h1).symm, (String.ext h2).symm⟩
      · rintro ⟨h1, h2⟩
        rw [h1, h2]
        exact ⟨rfl, rfl⟩

/-- C7: the install invocation for an identity is issued if and only if the
installed-state snapshot does not report both version and release equal to
the identity's; a missing entry — pacman's non-zero exit on the per-name
query — counts as not installed and triggers an install rather than
failing. -/
theorem c7_install_iff_mismatch (env : Env) (opts : List String)
    (info : PkgInfo) (w : World)
    (hn : wfName info.pkgname)
    (hwf : ∀ v r, w.installed info.pkgname = some (v, r) →
      wfVerRel v ∧ wfVerRel r) :
    countInstall (install_package env opts info w).2 =
      match w.installed info.pkgname with
      | none => 1
      | some (v, r) =>
        if info.pkgver = some v ∧ info.pkgrel = some r then 0 else 1 := by
  cases hdb : w.installed info.pkgname with
  | none =>
    have hq := is_package_installed_not_installed info w hdb
    unfold install_package
    rw [hq]
    dsimp only
    by_cases hrc :
        env.installRc (w.listing.find? fun f => matchesPkgRegex info f) = 0
    · rw [if_pos hrc]
      simp [countInstall, List.filter_cons, isInstallCmd]
    · rw [if_neg hrc]
      simp [countInstall, List.filter_cons, isInstallCmd]
  | some vr =>
    obtain ⟨v, r⟩ := vr
    obtain ⟨hv, hr⟩ := hwf v r hdb
    have hq := is_package_installed_db info w v r hdb hn hv hr
    unfold install_package
    rw [hq]
    cases hb : (eqOptStr v.data info.pkgver && eqOptStr r.data info.pkgrel) with
    | true =>
      have hcond : info.pkgver = some v ∧ info.pkgrel = some r :=
        (eqOptStr_and_iff v r info).1 hb
      dsimp only
      rw [if_pos hcond]
      simp [countInstall, List.filter_cons, isInstallCmd]
    | false =>
      have hcond : ¬(info.pkgver = some v ∧ info.pkgrel = some r) := by
        intro hc
        rw [(eqOptStr_and_iff v r info).2 hc] at hb
        exact absurd hb (by decide)
      dsimp only
      rw [if_neg hcond]
      by_cases hrc :
          env.installRc (w.listing.find? fun f => matchesPkgRegex info f) = 0
      · rw [if_pos hrc]
        simp [countInstall, List.filter_cons, isInstallCmd]
      · rw [if_neg hrc]
        simp [countInstall, List.filter_cons, isInstallCmd]

/-- C7 witness: nothing installed, so the install invocation is issued
exactly once for `fooId`. -/
theorem c7_install_iff_mismatch_witness :
    countInstall (install_package baseEnv [] fooId wArtOnly).2 = 1 := by
  have h := c7_install_iff_mismatch baseEnv [] fooId wArtOnly
    (by unfold wfName; decide)
    (fun v r hvr => by simp [wArtOnly] at hvr)
  simpa [wArtOnly] using h

/-- C4: for a batch of identities sharing one version/release, if at least
one identity's artifact is missing and the build tool's single run
satisfies every identity in the batch, the whole build phase performs
exactly one build invocation (never one per missing identity), and every
identity's artifact path resolves afterwards. -/
theorem c4_split_package_single_build (env : Env) (cwd : String) (w : World)
    (vOpt rOpt : Option String)
    (hshare : ∀ i ∈ pkg_infos (srcinfoStdout env),
      i.pkgver = vOpt ∧ i.pkgrel = rOpt)
    (hrc : env.buildRc = 0)
    (hbuildAll : ∀ l, ∀ i ∈ pkg_infos (srcinfoStdout env),
      pkg_exists cwd i (env.buildEffect l) = true)
    (hmiss : ∃ i ∈ pkg_infos (srcinfoStdout env),
      pkg_exists cwd i w.listing = false) :
    ∃ paths w1 log,
      build_packages env cwd w = (.ok ((true, paths), w1), log) ∧
      countBuild log = 1 ∧
      paths.length = (pkg_infos (srcinfoStdout env)).length ∧
      ∀ path ∈ paths, path.isSome = true := by
  obtain ⟨paths, w1, log, hloop, hcount, hlen, hsome⟩ :=
    buildLoop_single_build env cwd _ hrc hbuildAll w hmiss
  refine ⟨paths, w1, Cmd.srcinfoCmd :: log, ?_, ?_, hlen, hsome⟩
  · rw [build_packages_eq, hloop]
  · rw [countBuild_cons]
    simpa [isBuildCmd] using hcount

/-- C4 witness: split package `foo`/`bar`, neither artifact present: one
build, two resolved paths. -/
theorem c4_split_package_single_build_witness :
    ∃ paths w1 log,
      build_packages envSplit "/d" wEmpty = (.ok ((true, paths), w1), log) ∧
      countBuild log = 1 ∧
      paths.length = (pkg_infos (srcinfoStdout envSplit)).length ∧
      ∀ path ∈ paths, path.isSome = true :=
  c4_split_package_single_build envSplit "/d" wEmpty (some "1.0") (some "1")
    (by decide) rfl
    (by
      intro l
      show ∀ i ∈ pkg_infos (srcinfoStdout envSplit),
        pkg_exists "/d" i [fooArt, "bar-1.0-1-x86_64.pkg.tar.zst"] = true
      decide)
    (by decide)

/-- C2: idempotence of reconciliation.  Under the external tools' contracts
— a successful build satisfies every identity of the metadata, an artifact
matching an identity's pattern contains that package at the shared
version-release, and names/versions are pacman-well-formed — a second
`run_module` immediately after a successful first one reports
`changed = false` and issues zero build-tool and zero install invocations
(only srcinfo generation and installed-state queries), leaving the world
unchanged. -/
theorem c2_second_run_noop (env : Env) (p : Params) (w0 : World)
    (vS rS : String) (res1 : ModuleResult) (w1 : World) (log1 : List Cmd)
    (hver : (scanVersionInfo (srcinfoStdout env)).1 = some vS)
    (hrel : (scanVersionInfo (srcinfoStdout env)).2 = some rS)
    (hwfv : wfVerRel vS) (hwfr : wfVerRel rS)
    (hnames : ∀ i ∈ pkg_infos (srcinfoStdout env), wfName i.pkgname)
    (hcontents : ∀ i ∈ pkg_infos (srcinfoStdout env), ∀ f,
      matchesPkgRegex i f = true →
      env.artifactContents f = some (i.pkgname, vS, rS))
    (hbuildAll : ∀ l, ∀ i ∈ pkg_infos (srcinfoStdout env),
      pkg_exists p.pkgbuild_dir i (env.buildEffect l) = true)
    (h1 : run_module env p w0 = (.ok (res1, w1), log1)) :
    ∃ paths2 log2,
      run_module env p w1
        = (.ok ({ changed := false, package_paths := paths2 }, w1), log2) ∧
      countBuild log2 = 0 ∧ countInstall log2 = 0 := by
  unfold run_module at h1
  rw [build_packages_eq] at h1
  cases hbl : buildLoop env p.pkgbuild_dir (pkg_infos (srcinfoStdout env)) w0 with
  | mk outB lB =>
    rw [hbl] at h1
    cases outB with
    | error e => simp at h1
    | ok vB =>
      obtain ⟨⟨chB, pathsB⟩, wb⟩ := vB
      dsimp only at h1
      have hAllWb : ∀ i ∈ pkg_infos (srcinfoStdout env),
          pkg_exists p.pkgbuild_dir i wb.listing = true := by
        rcases buildLoop_post env p.pkgbuild_dir _ w0 _ _ _ hbl with
          ⟨hww, _, hall⟩ | ⟨l, hle⟩
        · intro i hi
          rw [hww]
          exact hall i hi
        · intro i hi
          rw [hle]
          exact hbuildAll l i hi
      by_cases hact : p.action = "install"
      · rw [if_pos hact, install_packages_eq] at h1
        cases hil : installLoop env p.install_options
            (pkg_infos (srcinfoStdout env)) wb with
        | mk outI lI =>
          rw [hil] at h1
          cases outI with
          | error e => simp at h1
          | ok vI =>
            obtain ⟨chI, wi⟩ := vI
            dsimp only at h1
            simp only [Prod.mk.injEq, Except.ok.injEq] at h1
            have hw1 : w1 = wi := h1.1.2.symm
            subst hw1
            have hg : ∀ i ∈ pkg_infos (srcinfoStdout env), goodInfo env vS rS i := by
              intro i hi
              obtain ⟨hvi, hri⟩ := mem_pkg_infos_fields _ i hi
              exact ⟨hnames i hi, by rw [hvi, hver], by rw [hri, hrel],
                hcontents i hi⟩
            have hart : ∀ i ∈ pkg_infos (srcinfoStdout env),
                (wb.listing.find? fun f => matchesPkgRegex i f).isSome = true := by
              intro i hi
              have := hAllWb i hi
              rw [pkg_exists_eq_find] at this
              exact this
            obtain ⟨hlistI, hOkAll, _⟩ :=
              installLoop_establishes env p.install_options vS rS hwfv hwfr _
                hg wb chI w1 lI hart hil
            have hAll2 : ∀ i ∈ pkg_infos (srcinfoStdout env),
                pkg_exists p.pkgbuild_dir i w1.listing = true := by
              intro i hi
              rw [hlistI]
              exact hAllWb i hi
            have hbl2 := buildLoop_all_exist env p.pkgbuild_dir _ w1 hAll2
            have hil2 := installLoop_noop env p.install_options _ w1 hOkAll
            refine ⟨(pkg_infos (srcinfoStdout env)).map
                (fun i => pkg_path p.pkgbuild_dir i w1.listing),
              Cmd.srcinfoCmd :: Cmd.srcinfoCmd ::
                (pkg_infos (srcinfoStdout env)).map
                  (fun i => Cmd.pacmanQ i.pkgname),
              ?_, ?_, ?_⟩
            · unfold run_module
              rw [build_packages_eq, hbl2]
              dsimp only
              rw [if_pos hact, install_packages_eq, hil2]
              rfl
            · rw [countBuild_cons, countBuild_cons, countBuild_map_pacmanQ]
              rfl
            · rw [countInstall_cons, countInstall_cons, countInstall_map_pacmanQ]
              rfl
      · rw [if_neg hact] at h1
        simp only [Prod.mk.injEq, Except.ok.injEq] at h1
        have hw1 : w1 = wb := h1.1.2.symm
        subst hw1
        have hbl2 := buildLoop_all_exist env p.pkgbuild_dir _ w1 hAllWb
        refine ⟨(pkg_infos (srcinfoStdout env)).map
            (fun i => pkg_path p.pkgbuild_dir i w1.listing),
          [Cmd.srcinfoCmd], ?_, rfl, rfl⟩
        unfold run_module
        rw [build_packages_eq, hbl2]
        dsimp only
        rw [if_neg hact]

/-- C2 witness: the converged world (artifact on disk, `foo` installed at
`1.0-1`): the first run is itself a no-op and the second run reports no
change with zero build/install invocations. -/
theorem c2_second_run_noop_witness :
    ∃ paths2 log2,
      run_module baseEnv pInstall wConverged
        = (.ok ({ changed := false, package_paths := paths2 }, wConverged), log2) ∧
      countBuild log2 = 0 ∧ countInstall log2 = 0 :=
  c2_second_run_noop baseEnv pInstall wConverged "1.0" "1"
    { changed := false
      package_paths := [some "/d/foo-1.0-1-x86_64.pkg.tar.zst"] }
    wConverged [Cmd.srcinfoCmd, Cmd.srcinfoCmd, Cmd.pacmanQ "foo"]
    (by decide) (by decide) (by decide) (by decide) (by decide)
    (by
      intro i hi f hf
      have hone : pkg_infos (srcinfoStdout baseEnv) = [fooId] := by decide
      rw [hone] at hi
      have : i = fooId := by simpa using hi
      rw [this]
      rfl)
    (by
      intro l
      show ∀ i ∈ pkg_infos (srcinfoStdout baseEnv),
        pkg_exists "/d" i [fooArt] = true
      decide)
    (by rfl)
